import Mathlib

/-!
Shallow embedding of the axe-core Cypress builder (`src/index.ts`,
`src/utils.ts`, `src/types.ts`) and proofs about the claims of its
specification.

The stateful, promise-chained TypeScript is embedded as pure Lean
functions that additionally return an explicit trace of the observable
effects: script-read attempts, script evaluations, engine `run`
invocations (with the argument each one received), the value of the
local retry counter at each invocation, the scheduled delays between
invocations, and engine `configure` invocations.  JavaScript's falsy
coercions (`selector` truthiness, `interval || 1000`, `retries || 0`,
`context || win.document`) are embedded explicitly.
-/

namespace AxeCypress

/-- Truthiness of a JavaScript string: falsy exactly when empty. -/
def jsTruthyString (s : String) : Bool := s ≠ ""

/-- Evaluation of `x || d` on an optionally-present JavaScript number: `undefined` and
`0` are falsy, so both yield the default `d`. -/
def jsOr (x : Option Nat) (d : Nat) : Nat :=
  match x with
  | none => d
  | some v => if v = 0 then d else v

/-- A `string | string[]` value as accepted by `withRules`, `withTags`
and `disableRules`. -/
inductive StringOrList where
  | single (s : String)
  | list (l : List String)
deriving Repr, DecidableEq

/-- Embedding of `normalizeSelector` from `utils.ts`:
`Array.isArray(selector) ? selector : [selector]`. -/
def normalizeSelector : StringOrList → List String
  | .single s => [s]
  | .list l => l

/-- The shape of the `axe` member of the page's global scope, as far as
`isAxeInjected` and the spec can observe it: whether `typeof axe` is
`"object"` and whether its `run` and `configure` members are functions. -/
structure AxeGlobal where
  isObject : Bool
  runIsFunction : Bool
  configureIsFunction : Bool
deriving Repr, DecidableEq

/-- A window: `axe = none` models `'axe' in win` being false. -/
structure Window where
  axe : Option AxeGlobal
deriving Repr, DecidableEq

/-- Embedding of `isAxeInjected` from `utils.ts`:
`'axe' in win && typeof win.axe === 'object' && typeof win.axe.run === 'function'`. -/
def isAxeInjected (win : Window) : Bool :=
  match win.axe with
  | none => false
  | some a => a.isObject && a.runIsFunction

/-- The injection check as the specification words it: the global scope
must expose an axe object with a callable `run` member AND a callable
`configure` member.  Written from the spec, to be compared with
`isAxeInjected` (which is written from the source). -/
def specIsAxeInjected (win : Window) : Bool :=
  match win.axe with
  | none => false
  | some a => a.isObject && a.runIsFunction && a.configureIsFunction

/-- The `type` discriminant of a `runOnly` filter. -/
inductive RunOnlyType where
  | rule
  | tag
deriving Repr, DecidableEq

/-- The `runOnly = {type, values}` filter as set by `withRules` / `withTags`. -/
structure RunOnly where
  type : RunOnlyType
  values : List String
deriving Repr, DecidableEq

/-- A per-rule override `{enabled: boolean}` as stored under
`runOptions.rules`. -/
structure RuleOverride where
  enabled : Bool
deriving Repr, DecidableEq

/-- The `rules` sub-mapping of the run options: a JavaScript object
keyed by rule id, embedded as an insertion-ordered association list. -/
def RulesMap := List (String × RuleOverride)
deriving Repr, DecidableEq

/-- Key lookup in a `RulesMap`. -/
def getRule (m : RulesMap) (k : String) : Option RuleOverride :=
  match m with
  | [] => none
  | (k', v) :: rest => if k' = k then some v else getRule rest k

/-- JavaScript object key assignment `m[k] = v` on an insertion-ordered
association list: an existing key keeps its position and gets the new
value; a fresh key is appended. -/
def setRule (m : RulesMap) (k : String) (v : RuleOverride) : RulesMap :=
  match m with
  | [] => [(k, v)]
  | (k', v') :: rest =>
      if k' = k then (k, v) :: rest else (k', v') :: setRule rest k v

/-- Embedding of `AxeRunOptions` from `types.ts`: the engine run options the builder
manipulates (`runOnly`, `rules`) plus the two builder-private fields
`interval` and `retries`. -/
structure AxeRunOptions where
  runOnly : Option RunOnly := none
  rules : Option RulesMap := none
  interval : Option Nat := none
  retries : Option Nat := none
deriving Repr, DecidableEq

/-- The engine-facing subset of the options: what remains of
`AxeRunOptions` after the destructuring
`const { interval, retries, ...axeOptions } = this._options` in
`analyze()`. -/
structure EngineOptions where
  runOnly : Option RunOnly
  rules : Option RulesMap
deriving Repr, DecidableEq

/-- The destructuring step: drop `interval` and `retries`, keep the rest. -/
def engineOptions (o : AxeRunOptions) : EngineOptions :=
  ⟨o.runOnly, o.rules⟩

/-- The builder's private state: `_includes`, `_excludes`, `_options`. -/
structure AxeBuilder where
  _includes : List String := []
  _excludes : List String := []
  _options : AxeRunOptions := {}
deriving Repr, DecidableEq

/-- Construction, `new AxeBuilder()`: empty include and exclude lists, empty options. -/
def AxeBuilder.new : AxeBuilder := {}

/-- Embedding of `include(selector)`: push the selector onto `_includes` when it is
truthy, otherwise do nothing; always return the builder. -/
def AxeBuilder.«include» (b : AxeBuilder) (selector : String) : AxeBuilder :=
  if jsTruthyString selector then
    { b with _includes := b._includes ++ [selector] }
  else b

/-- Embedding of `exclude(selector)`: push the selector onto `_excludes` when it is
truthy, otherwise do nothing; always return the builder. -/
def AxeBuilder.exclude (b : AxeBuilder) (selector : String) : AxeBuilder :=
  if jsTruthyString selector then
    { b with _excludes := b._excludes ++ [selector] }
  else b

/-- Embedding of `withRules(rules)`: normalize and set
`_options.runOnly = {type: 'rule', values}`. -/
def AxeBuilder.withRules (b : AxeBuilder) (rules : StringOrList) : AxeBuilder :=
  { b with _options :=
      { b._options with runOnly := some ⟨.rule, normalizeSelector rules⟩ } }

/-- Embedding of `withTags(tags)`: normalize and set
`_options.runOnly = {type: 'tag', values}`. -/
def AxeBuilder.withTags (b : AxeBuilder) (tags : StringOrList) : AxeBuilder :=
  { b with _options :=
      { b._options with runOnly := some ⟨.tag, normalizeSelector tags⟩ } }

/-- Embedding of `disableRules(rules)`: normalize, default `_options.rules` to `{}`
when absent (`this._options.rules || {}`), then assign
`{enabled: false}` under each rule id in order. -/
def AxeBuilder.disableRules (b : AxeBuilder) (rules : StringOrList) : AxeBuilder :=
  let ruleArray := normalizeSelector rules
  let m := b._options.rules.getD []
  let m' := ruleArray.foldl (fun acc r => setRule acc r ⟨false⟩) m
  { b with _options := { b._options with rules := some m' } }

/-- Embedding of `ContextObject` from `types.ts`: optional `include` and `exclude`
selector lists. -/
structure ContextObject where
  «include» : Option (List String)
  exclude : Option (List String)
deriving Repr, DecidableEq

/-- Embedding of `_buildContext()`: `undefined` when both lists are empty, otherwise
an object carrying whichever lists are non-empty. -/
def AxeBuilder.buildContext (b : AxeBuilder) : Option ContextObject :=
  let hasIncludes := b._includes.length > 0
  let hasExcludes := b._excludes.length > 0
  if ¬hasIncludes ∧ ¬hasExcludes then none
  else some ⟨if hasIncludes then some b._includes else none,
             if hasExcludes then some b._excludes else none⟩

/-- The first argument of `axe.run(context || win.document, ...)`:
either the built context object or, when it is `undefined`, the whole
document. -/
inductive RunTarget where
  | document
  | ctx (c : ContextObject)
deriving Repr, DecidableEq

/-- Evaluation of `context || win.document`: an object is always truthy, `undefined`
falls back to the document. -/
def runArg (context : Option ContextObject) : RunTarget :=
  match context with
  | none => .document
  | some c => .ctx c

/-- A scan result; the builder inspects only the violation list. -/
structure ScanResult where
  violations : List Nat
deriving Repr, DecidableEq

/-- The page's scanning engine, abstracted as a function from the
invocation index (0 for the first `axe.run` call of an `analyze()`) and
the arguments passed to `axe.run` to the result that call resolves
with. -/
def Engine := Nat → RunTarget → EngineOptions → ScanResult

/-- Errors of the injection step: the engine script could not be
located or read. -/
inductive InjectError where
  | resourceNotFound
deriving Repr, DecidableEq

/-- Trace of `_ensureAxeInjected`: how many script-read attempts and
script evaluations happened, and whether the step succeeded. -/
structure InjectOut where
  reads : Nat
  evals : Nat
  result : Except InjectError Unit
deriving Repr

/-- Embedding of `_ensureAxeInjected(win)`: skip everything when `isAxeInjected`
holds; otherwise read the script (`file = none` models an unreadable or
missing script) and evaluate it in the page. -/
def ensureAxeInjected (win : Window) (file : Option String) : InjectOut :=
  if isAxeInjected win then ⟨0, 0, .ok ()⟩
  else
    match file with
    | none => ⟨1, 0, .error .resourceNotFound⟩
    | some _ => ⟨1, 1, .ok ()⟩

/-- Trace of the `runAxeCheck` retry loop inside `analyze()`: the
argument pair of every engine `run` invocation in order, the value of
`remainingRetries` at each invocation, the delay scheduled before each
retry, and the result the loop resolves with. -/
structure LoopOut where
  calls : List (RunTarget × EngineOptions)
  counters : List Nat
  delays : List Nat
  result : ScanResult
deriving Repr, DecidableEq

/-- The `runAxeCheck` recursion: run the engine; if the result has
violations and `remainingRetries > 0`, decrement the counter, wait
`intervalMs`, and run again; otherwise resolve with the result. -/
def runAxeCheck (engine : Engine) (target : RunTarget)
    (axeOptions : EngineOptions) (intervalMs : Nat) :
    Nat → Nat → LoopOut
  | k, 0 => ⟨[(target, axeOptions)], [0], [], engine k target axeOptions⟩
  | k, rem + 1 =>
      let r := engine k target axeOptions
      if 0 < r.violations.length then
        let out := runAxeCheck engine target axeOptions intervalMs (k + 1) rem
        ⟨(target, axeOptions) :: out.calls, (rem + 1) :: out.counters,
          intervalMs :: out.delays, out.result⟩
      else ⟨[(target, axeOptions)], [rem + 1], [], r⟩

/-- Trace of a whole `analyze()` call: the builder state it leaves
behind, the injection effects, the engine invocations with their
arguments, the retry counters and delays, and the outcome. -/
structure AnalyzeOut where
  post : AxeBuilder
  reads : Nat
  evals : Nat
  engineCalls : List (RunTarget × EngineOptions)
  counters : List Nat
  delays : List Nat
  result : Except InjectError ScanResult
deriving Repr

/-- Embedding of `analyze()`: ensure injection; on failure, fail with that error and
touch nothing else; on success build the context, split off `interval`
and `retries`, initialize `remainingRetries = retries || 0`, and run
the retry loop with delay `interval || 1000`. -/
def AxeBuilder.analyze (b : AxeBuilder) (win : Window) (file : Option String)
    (engine : Engine) : AnalyzeOut :=
  let inj := ensureAxeInjected win file
  match inj.result with
  | .error e => ⟨b, inj.reads, inj.evals, [], [], [], .error e⟩
  | .ok _ =>
      let context := b.buildContext
      let axeOptions := engineOptions b._options
      let remainingRetries := jsOr b._options.retries 0
      let out := runAxeCheck engine (runArg context) axeOptions
        (jsOr b._options.interval 1000) 0 remainingRetries
      ⟨b, inj.reads, inj.evals, out.calls, out.counters, out.delays,
        .ok out.result⟩

/-- An argument to `axe.configure`, opaque to the builder. -/
structure Spec where
  id : Nat
deriving Repr, DecidableEq

/-- Trace of a `configure(config)` call: the builder state it leaves
behind, the injection effects, the `axe.configure` invocations made,
and the outcome. -/
structure ConfigureOut where
  post : AxeBuilder
  reads : Nat
  evals : Nat
  configureCalls : List Spec
  result : Except InjectError Unit
deriving Repr

/-- Embedding of `configure(config)`: ensure injection; on failure fail with that
error and call nothing; on success invoke `axe.configure(config)` once
and resolve to the builder. -/
def AxeBuilder.configure (b : AxeBuilder) (win : Window) (file : Option String)
    (config : Spec) : ConfigureOut :=
  let inj := ensureAxeInjected win file
  match inj.result with
  | .error e => ⟨b, inj.reads, inj.evals, [], .error e⟩
  | .ok _ => ⟨b, inj.reads, inj.evals, [config], .ok ()⟩

/-! ## Concrete fixtures used to instantiate the theorems -/

/-- A page whose global scope exposes a full engine object. -/
def winInjected : Window := ⟨some ⟨true, true, true⟩⟩

/-- A page whose global scope has no `axe` member at all. -/
def winBare : Window := ⟨none⟩

/-- An engine stub whose every result has one violation. -/
def engineAlwaysOne : Engine := fun _ _ _ => ⟨[7]⟩

/-- An engine stub whose every result is clean. -/
def engineClean : Engine := fun _ _ _ => ⟨[]⟩

/-- An engine stub with a violation on the first call and a clean result
from the second call on. -/
def engineSecondClean : Engine := fun k _ _ =>
  if k = 0 then ⟨[7]⟩ else ⟨[]⟩

/-- A builder configured with `retries = 2`. -/
def builderRetries2 : AxeBuilder := { _options := { retries := some 2 } }

/-- A builder configured with `retries = 3`. -/
def builderRetries3 : AxeBuilder := { _options := { retries := some 3 } }

/-- A builder configured with `interval = 0` and `retries = 0`. -/
def builderZeros : AxeBuilder :=
  { _options := { interval := some 0, retries := some 0 } }

/-- A builder configured with `interval = 0` and `retries = 1`. -/
def builderIntervalZero : AxeBuilder :=
  { _options := { interval := some 0, retries := some 1 } }

/-! ## Helper lemmas about the retry loop and the pipelines -/

/-- The loop performs at least one engine invocation. -/
theorem runAxeCheck_calls_ne (engine : Engine) (t : RunTarget)
    (o : EngineOptions) (i : Nat) (rem k : Nat) :
    (runAxeCheck engine t o i k rem).calls ≠ [] := by
  cases rem with
  | zero => simp [runAxeCheck]
  | succ rem =>
      simp only [runAxeCheck]
      split <;> simp

/-- The loop performs at most `remainingRetries + 1` engine invocations. -/
theorem runAxeCheck_calls_length_le (engine : Engine) (t : RunTarget)
    (o : EngineOptions) (i : Nat) (rem : Nat) : ∀ k,
    (runAxeCheck engine t o i k rem).calls.length ≤ rem + 1 := by
  induction rem with
  | zero => intro k; simp [runAxeCheck]
  | succ rem ih =>
      intro k
      simp only [runAxeCheck]
      split
      · have := ih (k + 1)
        simp only [List.length_cons]
        omega
      · simp

/-- Every engine invocation of the loop receives the same target and the
same options. -/
theorem runAxeCheck_calls_mem (engine : Engine) (t : RunTarget)
    (o : EngineOptions) (i : Nat) (rem : Nat) : ∀ k,
    ∀ c ∈ (runAxeCheck engine t o i k rem).calls, c = (t, o) := by
  induction rem with
  | zero => intro k c hc; simpa [runAxeCheck] using hc
  | succ rem ih =>
      intro k c hc
      simp only [runAxeCheck] at hc
      split at hc
      · rcases List.mem_cons.mp hc with h | h
        · exact h
        · exact ih (k + 1) c h
      · simpa using hc

/-- The counter recorded at the first invocation of the loop is the
initial `remainingRetries` value. -/
theorem runAxeCheck_counters_head (engine : Engine) (t : RunTarget)
    (o : EngineOptions) (i : Nat) (k rem : Nat) :
    (runAxeCheck engine t o i k rem).counters.head? = some rem := by
  cases rem with
  | zero => simp [runAxeCheck]
  | succ rem =>
      simp only [runAxeCheck]
      split <;> simp

/-- The recorded retry counter strictly decreases across the loop. -/
theorem runAxeCheck_counters_chain (engine : Engine) (t : RunTarget)
    (o : EngineOptions) (i : Nat) (rem : Nat) : ∀ k,
    List.Chain' (fun x y => y < x) (runAxeCheck engine t o i k rem).counters := by
  induction rem with
  | zero => intro k; simp [runAxeCheck]
  | succ rem ih =>
      intro k
      simp only [runAxeCheck]
      split
      · refine List.chain'_cons'.mpr ⟨?_, ih (k + 1)⟩
        intro y hy
        rw [runAxeCheck_counters_head] at hy
        simp only [Option.mem_def, Option.some.injEq] at hy
        omega
      · simp

/-- Every delay scheduled by the loop equals the interval value. -/
theorem runAxeCheck_delays_mem (engine : Engine) (t : RunTarget)
    (o : EngineOptions) (i : Nat) (rem : Nat) : ∀ k,
    ∀ d ∈ (runAxeCheck engine t o i k rem).delays, d = i := by
  induction rem with
  | zero => intro k d hd; simp [runAxeCheck] at hd
  | succ rem ih =>
      intro k d hd
      simp only [runAxeCheck] at hd
      split at hd
      · rcases List.mem_cons.mp hd with h | h
        · exact h
        · exact ih (k + 1) d h
      · simp at hd

/-- The loop resolves with the result of its last engine invocation. -/
theorem runAxeCheck_result (engine : Engine) (t : RunTarget)
    (o : EngineOptions) (i : Nat) (rem : Nat) : ∀ k,
    (runAxeCheck engine t o i k rem).result =
      engine (k + (runAxeCheck engine t o i k rem).calls.length - 1) t o := by
  induction rem with
  | zero => intro k; simp [runAxeCheck]
  | succ rem ih =>
      intro k
      simp only [runAxeCheck]
      split
      · have h := ih (k + 1)
        have hne := runAxeCheck_calls_ne engine t o i rem (k + 1)
        simp only [List.length_cons]
        rw [h]
        congr 1
        have : (runAxeCheck engine t o i (k + 1) rem).calls.length ≥ 1 := by
          cases hcl : (runAxeCheck engine t o i (k + 1) rem).calls with
          | nil => exact absurd hcl hne
          | cons x xs => simp
        omega
      · simp

/-- When every result the engine produces has violations, the loop uses
its whole budget: exactly `remainingRetries + 1` invocations and
`remainingRetries` delays. -/
theorem runAxeCheck_always_violations (engine : Engine) (t : RunTarget)
    (o : EngineOptions) (i : Nat)
    (h : ∀ j, 0 < (engine j t o).violations.length) (rem : Nat) : ∀ k,
    (runAxeCheck engine t o i k rem).calls.length = rem + 1 ∧
    (runAxeCheck engine t o i k rem).delays.length = rem := by
  induction rem with
  | zero => intro k; simp [runAxeCheck]
  | succ rem ih =>
      intro k
      simp only [runAxeCheck]
      have hk := h k
      split
      · have := ih (k + 1)
        simp only [List.length_cons]
        omega
      · omega

/-- When the current invocation reports zero violations, the loop stops
at once, whatever the remaining budget. -/
theorem runAxeCheck_zero_violations (engine : Engine) (t : RunTarget)
    (o : EngineOptions) (i : Nat) (k rem : Nat)
    (h : (engine k t o).violations.length = 0) :
    runAxeCheck engine t o i k rem = ⟨[(t, o)], [rem], [], engine k t o⟩ := by
  cases rem with
  | zero => simp [runAxeCheck]
  | succ rem =>
      simp only [runAxeCheck]
      split
      · omega
      · rfl

/-- When the first invocation has violations and the second is clean,
the loop performs exactly two invocations whatever positive budget
remains. -/
theorem runAxeCheck_stops_second (engine : Engine) (t : RunTarget)
    (o : EngineOptions) (i : Nat) (k rem : Nat)
    (h0 : 0 < (engine k t o).violations.length)
    (h1 : (engine (k + 1) t o).violations.length = 0) :
    (runAxeCheck engine t o i k (rem + 1)).calls.length = 2 := by
  simp only [runAxeCheck]
  rw [if_pos h0,
    runAxeCheck_zero_violations engine t o i (k + 1) rem h1]
  rfl

/-- Unfolding of `analyze()` when the injection step succeeds. -/
theorem analyze_ok (b : AxeBuilder) (win : Window) (file : Option String)
    (engine : Engine)
    (hok : (ensureAxeInjected win file).result = .ok ()) :
    b.analyze win file engine =
      ⟨b, (ensureAxeInjected win file).reads, (ensureAxeInjected win file).evals,
        (runAxeCheck engine (runArg b.buildContext) (engineOptions b._options)
          (jsOr b._options.interval 1000) 0 (jsOr b._options.retries 0)).calls,
        (runAxeCheck engine (runArg b.buildContext) (engineOptions b._options)
          (jsOr b._options.interval 1000) 0 (jsOr b._options.retries 0)).counters,
        (runAxeCheck engine (runArg b.buildContext) (engineOptions b._options)
          (jsOr b._options.interval 1000) 0 (jsOr b._options.retries 0)).delays,
        .ok (runAxeCheck engine (runArg b.buildContext) (engineOptions b._options)
          (jsOr b._options.interval 1000) 0 (jsOr b._options.retries 0)).result⟩ := by
  simp only [AxeBuilder.analyze, hok]

/-- Unfolding of `analyze()` when the injection step fails. -/
theorem analyze_err (b : AxeBuilder) (win : Window) (file : Option String)
    (engine : Engine) (e : InjectError)
    (herr : (ensureAxeInjected win file).result = .error e) :
    b.analyze win file engine =
      ⟨b, (ensureAxeInjected win file).reads, (ensureAxeInjected win file).evals,
        [], [], [], .error e⟩ := by
  simp only [AxeBuilder.analyze, herr]

/-- The engine invocations of a successful `analyze()` are those of the
retry loop. -/
theorem analyze_ok_engineCalls (b : AxeBuilder) (win : Window)
    (file : Option String) (engine : Engine)
    (hok : (ensureAxeInjected win file).result = .ok ()) :
    (b.analyze win file engine).engineCalls =
      (runAxeCheck engine (runArg b.buildContext) (engineOptions b._options)
        (jsOr b._options.interval 1000) 0 (jsOr b._options.retries 0)).calls := by
  rw [analyze_ok b win file engine hok]

/-- The recorded retry counters of a successful `analyze()`. -/
theorem analyze_ok_counters (b : AxeBuilder) (win : Window)
    (file : Option String) (engine : Engine)
    (hok : (ensureAxeInjected win file).result = .ok ()) :
    (b.analyze win file engine).counters =
      (runAxeCheck engine (runArg b.buildContext) (engineOptions b._options)
        (jsOr b._options.interval 1000) 0 (jsOr b._options.retries 0)).counters := by
  rw [analyze_ok b win file engine hok]

/-- The scheduled delays of a successful `analyze()`. -/
theorem analyze_ok_delays (b : AxeBuilder) (win : Window)
    (file : Option String) (engine : Engine)
    (hok : (ensureAxeInjected win file).result = .ok ()) :
    (b.analyze win file engine).delays =
      (runAxeCheck engine (runArg b.buildContext) (engineOptions b._options)
        (jsOr b._options.interval 1000) 0 (jsOr b._options.retries 0)).delays := by
  rw [analyze_ok b win file engine hok]

/-- The outcome of a successful `analyze()` is the loop's result. -/
theorem analyze_ok_result (b : AxeBuilder) (win : Window)
    (file : Option String) (engine : Engine)
    (hok : (ensureAxeInjected win file).result = .ok ()) :
    (b.analyze win file engine).result =
      .ok (runAxeCheck engine (runArg b.buildContext) (engineOptions b._options)
        (jsOr b._options.interval 1000) 0 (jsOr b._options.retries 0)).result := by
  rw [analyze_ok b win file engine hok]

/-- The method `analyze()` always leaves the builder state it started from. -/
theorem analyze_post (b : AxeBuilder) (win : Window) (file : Option String)
    (engine : Engine) : (b.analyze win file engine).post = b := by
  cases hres : (ensureAxeInjected win file).result with
  | error e => rw [analyze_err b win file engine e hres]
  | ok u => cases u; rw [analyze_ok b win file engine hres]

/-- Unfolding of `configure()` when the injection step fails. -/
theorem configure_err (b : AxeBuilder) (win : Window) (file : Option String)
    (config : Spec) (e : InjectError)
    (herr : (ensureAxeInjected win file).result = .error e) :
    b.configure win file config =
      ⟨b, (ensureAxeInjected win file).reads, (ensureAxeInjected win file).evals,
        [], .error e⟩ := by
  simp only [AxeBuilder.configure, herr]

/-- Evaluating `jsOr` over a present value with default `0` is the value itself. -/
theorem jsOr_some_zero (r : Nat) : jsOr (some r) 0 = r := by
  by_cases h : r = 0 <;> simp [jsOr, h]

/-- Assigning a key makes lookup on that key return the new value. -/
theorem getRule_setRule_self (m : RulesMap) (k : String) (v : RuleOverride) :
    getRule (setRule m k v) k = some v := by
  induction m with
  | nil => simp [setRule, getRule]
  | cons p rest ih =>
      obtain ⟨k', v'⟩ := p
      by_cases h : k' = k
      · simp [setRule, getRule, h]
      · simp [setRule, getRule, h, ih]

/-- Assigning one key leaves lookup on every other key unchanged. -/
theorem getRule_setRule_ne (m : RulesMap) (k k' : String) (v : RuleOverride)
    (h : k' ≠ k) : getRule (setRule m k' v) k = getRule m k := by
  induction m with
  | nil => simp [setRule, getRule, h]
  | cons p rest ih =>
      obtain ⟨k0, v0⟩ := p
      by_cases h0 : k0 = k'
      · subst h0
        simp [setRule, getRule, h]
      · by_cases h1 : k0 = k <;>
          simp [setRule, getRule, h0, h1, ih, Ne.symm h]

/-- Folding assignments over a list of keys leaves every key outside
the list untouched. -/
theorem getRule_foldl_not_mem (l : List String) (v : RuleOverride)
    (k : String) (h : k ∉ l) : ∀ m : RulesMap,
    getRule (l.foldl (fun acc r => setRule acc r v) m) k = getRule m k := by
  induction l with
  | nil => intro m; simp
  | cons x xs ih =>
      intro m
      simp only [List.mem_cons, not_or] at h
      simp only [List.foldl_cons]
      rw [ih h.2, getRule_setRule_ne m k x v (Ne.symm h.1)]

/-- Folding assignments of one value over a list of keys maps every key
of the list to that value. -/
theorem getRule_foldl_mem (l : List String) (v : RuleOverride)
    (k : String) (h : k ∈ l) : ∀ m : RulesMap,
    getRule (l.foldl (fun acc r => setRule acc r v) m) k = some v := by
  induction l with
  | nil => simp at h
  | cons x xs ih =>
      intro m
      simp only [List.foldl_cons]
      by_cases hx : k ∈ xs
      · exact ih hx (setRule m x v)
      · have hk : k = x := by
          rcases List.mem_cons.mp h with h' | h'
          · exact h'
          · exact absurd h' hx
        subst hk
        rw [getRule_foldl_not_mem xs v k hx (setRule m k v),
          getRule_setRule_self]

/-- The rules map stored after `disableRules`. -/
theorem disableRules_rules (b : AxeBuilder) (rules : StringOrList) :
    (b.disableRules rules)._options.rules =
      some ((normalizeSelector rules).foldl
        (fun acc r => setRule acc r ⟨false⟩) (b._options.rules.getD [])) := by
  rfl

/-! ## Claim theorems -/

/-- C1, counterexample: the claim says `isAxeInjected` returns true if
and only if both the `run` member and the `configure` member are present
and callable.  On a window whose `axe` is an object with a callable
`run` but a non-callable `configure`, the source's `isAxeInjected`
returns true while the spec's check is false: the source never looks at
`configure`. -/
theorem C1_counterexample :
    isAxeInjected ⟨some ⟨true, true, false⟩⟩ = true ∧
    specIsAxeInjected ⟨some ⟨true, true, false⟩⟩ = false := by
  decide

/-- C1, amended: the injection guard skips injection exactly when the
global scope exposes an `axe` member of object type with a callable
`run` member — the `configure` member is not checked.  When
`isAxeInjected` returns true, `_ensureAxeInjected` performs no script
read and no script evaluation and succeeds. -/
theorem C1_injection_guard (win : Window) (file : Option String) :
    (isAxeInjected win = true ↔
      ∃ a, win.axe = some a ∧ a.isObject = true ∧ a.runIsFunction = true) ∧
    (isAxeInjected win = true →
      ensureAxeInjected win file = ⟨0, 0, .ok ()⟩) := by
  constructor
  · cases win with
    | mk axe =>
        cases axe with
        | none => simp [isAxeInjected]
        | some a => simp [isAxeInjected]
  · intro h
    simp [ensureAxeInjected, h]

/-- C1, witness: on a fully injected page the guard is positive and the
injection step touches nothing. -/
theorem C1_injection_guard_witness :
    ensureAxeInjected winInjected (some "axe") = ⟨0, 0, .ok ()⟩ := by
  exact (C1_injection_guard winInjected (some "axe")).2 (by decide)

/-- C5: tag filters and rule filters are mutually exclusive with
last-write-wins semantics: `withTags` then `withRules` leaves a pure
rule filter in `runOnly`, and `withRules` then `withTags` leaves a pure
tag filter; neither sequence touches the `rules` sub-mapping. -/
theorem C5_filter_mutual_exclusion (b : AxeBuilder)
    (tags rules : StringOrList) :
    ((b.withTags tags).withRules rules)._options.runOnly =
      some ⟨.rule, normalizeSelector rules⟩ ∧
    ((b.withTags tags).withRules rules)._options.rules = b._options.rules ∧
    ((b.withRules rules).withTags tags)._options.runOnly =
      some ⟨.tag, normalizeSelector tags⟩ ∧
    ((b.withRules rules).withTags tags)._options.rules = b._options.rules := by
  exact ⟨rfl, rfl, rfl, rfl⟩

/-- C7: the context builder is a pure function of the include and
exclude lists: no context when both are empty, otherwise an object with
the `include` key exactly when `includes` is non-empty and the `exclude`
key exactly when `excludes` is non-empty, each carrying the full list;
with only excludes `["#ads"]` the context is exactly
`{exclude: ["#ads"]}`. -/
theorem C7_build_context (b : AxeBuilder) :
    (b._includes = [] → b._excludes = [] → b.buildContext = none) ∧
    (b._includes ≠ [] ∨ b._excludes ≠ [] →
      b.buildContext = some
        ⟨if b._includes = [] then none else some b._includes,
         if b._excludes = [] then none else some b._excludes⟩) ∧
    (AxeBuilder.new.exclude "#ads").buildContext =
      some ⟨none, some ["#ads"]⟩ := by
  refine ⟨?_, ?_, ?_⟩
  · intro h1 h2
    simp [AxeBuilder.buildContext, h1, h2]
  · intro h
    rcases hi : b._includes with _ | ⟨x, xs⟩ <;>
      rcases he : b._excludes with _ | ⟨y, ys⟩ <;>
        simp [hi, he] at h ⊢ <;>
          simp [AxeBuilder.buildContext, hi, he]
  · decide

/-- C7, witness: a builder with includes `["body"]` and no excludes
derives the context `{include: ["body"]}`, and an empty builder derives
no context. -/
theorem C7_build_context_witness :
    (AxeBuilder.mk [] [] {}).buildContext = none ∧
    (AxeBuilder.mk ["body"] [] {}).buildContext =
      some ⟨some ["body"], none⟩ := by
  constructor
  · exact (C7_build_context (AxeBuilder.mk [] [] {})).1 rfl rfl
  · have h := (C7_build_context (AxeBuilder.mk ["body"] [] {})).2.1
      (Or.inl (by decide))
    simpa using h

/-- C9: `include(selector)` appends to `_includes` exactly when the
selector is a non-empty (truthy) string and is a silent no-op,
returning the builder unchanged, on the falsy input; `exclude` behaves
symmetrically on `_excludes`. -/
theorem C9_include_exclude (b : AxeBuilder) (s : String) :
    (s ≠ "" →
      b.«include» s = { b with _includes := b._includes ++ [s] } ∧
      b.exclude s = { b with _excludes := b._excludes ++ [s] }) ∧
    (s = "" → b.«include» s = b ∧ b.exclude s = b) := by
  constructor
  · intro h
    constructor <;> simp [AxeBuilder.«include», AxeBuilder.exclude,
      jsTruthyString, h]
  · intro h
    constructor <;> simp [AxeBuilder.«include», AxeBuilder.exclude,
      jsTruthyString, h]

/-- C2: for every configured retries value `r`, a successful `analyze()`
performs at most `r + 1` engine run invocations and its recorded
remaining-retries counter strictly decreases across the loop; with
`retries = 2` and an engine whose every result has violations, exactly
3 invocations happen with a delay of `interval || 1000` between each
consecutive pair. -/
theorem C2_retry_termination (b : AxeBuilder) (win : Window)
    (file : Option String) (engine : Engine)
    (hok : (ensureAxeInjected win file).result = .ok ()) :
    (∀ r, b._options.retries = some r →
      (b.analyze win file engine).engineCalls.length ≤ r + 1) ∧
    List.Chain' (fun x y => y < x) (b.analyze win file engine).counters ∧
    (b._options.retries = some 2 →
      (∀ j t o, 0 < (engine j t o).violations.length) →
      (b.analyze win file engine).engineCalls.length = 3 ∧
      (b.analyze win file engine).delays =
        [jsOr b._options.interval 1000, jsOr b._options.interval 1000]) := by
  rw [analyze_ok_delays b win file engine hok,
    analyze_ok_engineCalls b win file engine hok,
    analyze_ok_counters b win file engine hok]
  refine ⟨?_, ?_, ?_⟩
  · intro r hr
    rw [hr, jsOr_some_zero]
    exact runAxeCheck_calls_length_le engine (runArg b.buildContext)
      (engineOptions b._options) (jsOr b._options.interval 1000) r 0
  · exact runAxeCheck_counters_chain engine (runArg b.buildContext)
      (engineOptions b._options) (jsOr b._options.interval 1000)
      (jsOr b._options.retries 0) 0
  · intro hr hviol
    rw [hr, jsOr_some_zero]
    have hv : ∀ j, 0 < (engine j (runArg b.buildContext)
        (engineOptions b._options)).violations.length :=
      fun j => hviol j _ _
    have hmain := runAxeCheck_always_violations engine (runArg b.buildContext)
      (engineOptions b._options) (jsOr b._options.interval 1000) hv 2 0
    refine ⟨hmain.1, ?_⟩
    have hmem := runAxeCheck_delays_mem engine (runArg b.buildContext)
      (engineOptions b._options) (jsOr b._options.interval 1000) 2 0
    rcases hd : (runAxeCheck engine (runArg b.buildContext)
        (engineOptions b._options) (jsOr b._options.interval 1000)
        0 2).delays with _ | ⟨d1, tl⟩
    · rw [hd] at hmain; simp at hmain
    · rcases tl with _ | ⟨d2, tl2⟩
      · rw [hd] at hmain; simp at hmain
      · rcases tl2 with _ | ⟨d3, tl3⟩
        · have e1 := hmem d1 (by rw [hd]; simp)
          have e2 := hmem d2 (by rw [hd]; simp)
          rw [e1, e2]
        · rw [hd] at hmain; simp at hmain

/-- C2, witness: with `retries = 2` on an injected page and an engine
that always reports one violation, `analyze()` makes exactly 3 engine
invocations, its counter trace strictly decreases, and both delays are
the 1000 ms default. -/
theorem C2_retry_termination_witness :
    (builderRetries2.analyze winInjected (some "axe")
      engineAlwaysOne).engineCalls.length ≤ 2 + 1 ∧
    List.Chain' (fun x y => y < x)
      (builderRetries2.analyze winInjected (some "axe")
        engineAlwaysOne).counters ∧
    (builderRetries2.analyze winInjected (some "axe")
      engineAlwaysOne).engineCalls.length = 3 ∧
    (builderRetries2.analyze winInjected (some "axe")
      engineAlwaysOne).delays = [1000, 1000] := by
  have h := C2_retry_termination builderRetries2 winInjected (some "axe")
    engineAlwaysOne rfl
  have h3 := h.2.2 rfl (fun j t o => by simp [engineAlwaysOne])
  exact ⟨h.1 2 rfl, h.2.1, h3.1, h3.2⟩

/-- C3: the retry loop exits as soon as a result has zero violations or
the counter reaches zero; a successful `analyze()` resolves, without
error, with the result of its last engine invocation even when that
result still has violations; with `retries = 3` and an engine that is
clean from the second call on, exactly 2 invocations happen. -/
theorem C3_early_exit (b : AxeBuilder) (win : Window)
    (file : Option String) (engine : Engine)
    (hok : (ensureAxeInjected win file).result = .ok ()) :
    (∀ t o i k rem, (engine k t o).violations.length = 0 →
      (runAxeCheck engine t o i k rem).calls.length = 1) ∧
    (∀ t o i k, (runAxeCheck engine t o i k 0).calls.length = 1) ∧
    ((b.analyze win file engine).result =
      .ok (engine ((b.analyze win file engine).engineCalls.length - 1)
        (runArg b.buildContext) (engineOptions b._options))) ∧
    (b._options.retries = some 3 →
      0 < (engine 0 (runArg b.buildContext)
        (engineOptions b._options)).violations.length →
      (engine 1 (runArg b.buildContext)
        (engineOptions b._options)).violations.length = 0 →
      (b.analyze win file engine).engineCalls.length = 2) := by
  refine ⟨?_, ?_, ?_, ?_⟩
  · intro t o i k rem h
    rw [runAxeCheck_zero_violations engine t o i k rem h]
    rfl
  · intro t o i k
    simp [runAxeCheck]
  · rw [analyze_ok_result b win file engine hok,
      analyze_ok_engineCalls b win file engine hok,
      runAxeCheck_result engine (runArg b.buildContext)
        (engineOptions b._options) (jsOr b._options.interval 1000)
        (jsOr b._options.retries 0) 0]
    simp
  · intro hr h0 h1
    rw [analyze_ok_engineCalls b win file engine hok, hr, jsOr_some_zero]
    rw [show (3 : Nat) = 2 + 1 from rfl]
    exact runAxeCheck_stops_second engine (runArg b.buildContext)
      (engineOptions b._options) (jsOr b._options.interval 1000) 0 2 h0
      (by simpa using h1)

/-- C3, witness: with `retries = 3` on an injected page and an engine
clean from the second call on, `analyze()` makes exactly 2 invocations
and resolves with the second (clean) result. -/
theorem C3_early_exit_witness :
    (builderRetries3.analyze winInjected (some "axe")
      engineSecondClean).engineCalls.length = 2 ∧
    (builderRetries3.analyze winInjected (some "axe")
      engineSecondClean).result =
      .ok (engineSecondClean
        ((builderRetries3.analyze winInjected (some "axe")
          engineSecondClean).engineCalls.length - 1)
        (runArg builderRetries3.buildContext)
        (engineOptions builderRetries3._options)) := by
  have h := C3_early_exit builderRetries3 winInjected (some "axe")
    engineSecondClean rfl
  exact ⟨h.2.2.2 rfl (by decide) (by decide), h.2.2.1⟩

/-- C4: a run of `analyze()` never mutates the builder state — it
leaves exactly the builder it started from — and every engine
invocation, the retries included, receives the same target (the context
derived from the untouched state) and the same engine-facing options,
namely the run options with the `interval` and `retries` fields removed
and the remaining fields untouched. -/
theorem C4_state_immutable (b : AxeBuilder) (win : Window)
    (file : Option String) (engine : Engine) :
    (b.analyze win file engine).post = b ∧
    (∀ c ∈ (b.analyze win file engine).engineCalls,
      c = (runArg b.buildContext, engineOptions b._options)) ∧
    (∀ o : AxeRunOptions, (engineOptions o).runOnly = o.runOnly ∧
      (engineOptions o).rules = o.rules) := by
  refine ⟨analyze_post b win file engine, ?_, fun o => ⟨rfl, rfl⟩⟩
  intro c hc
  cases hres : (ensureAxeInjected win file).result with
  | error e =>
      rw [analyze_err b win file engine e hres] at hc
      simp at hc
  | ok u =>
      cases u
      rw [analyze_ok_engineCalls b win file engine hres] at hc
      exact runAxeCheck_calls_mem engine (runArg b.buildContext)
        (engineOptions b._options) (jsOr b._options.interval 1000)
        (jsOr b._options.retries 0) 0 c hc

/-- C4, witness: on a concrete retrying run, the builder state is
returned unchanged and the first recorded engine call carries the
derived context and the stripped options. -/
theorem C4_state_immutable_witness :
    (builderRetries2.analyze winInjected (some "axe")
      engineAlwaysOne).post = builderRetries2 ∧
    (RunTarget.document, engineOptions builderRetries2._options) =
      (runArg builderRetries2.buildContext,
        engineOptions builderRetries2._options) := by
  have h := C4_state_immutable builderRetries2 winInjected (some "axe")
    engineAlwaysOne
  refine ⟨h.1, ?_⟩
  exact h.2.1 (RunTarget.document, engineOptions builderRetries2._options)
    (by decide)

/-- C9, witness: a non-empty selector is appended; the empty selector
leaves the builder untouched. -/
theorem C9_include_exclude_witness :
    (AxeBuilder.new.«include» "main")._includes = ["main"] ∧
    (AxeBuilder.new.«include» "")._includes = [] ∧
    (AxeBuilder.new.exclude "")._excludes = [] := by
  have h1 := (C9_include_exclude AxeBuilder.new "main").1 (by decide)
  have h2 := (C9_include_exclude AxeBuilder.new "").2 rfl
  refine ⟨?_, ?_, ?_⟩
  · rw [h1.1]; rfl
  · rw [h2.1]; rfl
  · rw [h2.2]; rfl

/-- C6: `disableRules` accumulates additively: every rule id named by a
call is mapped to `{enabled: false}`, and a later call changes nothing
for keys it does not name — so after `disableRules` with one list and
then another, the keys of both lists are all mapped to
`{enabled: false}`. -/
theorem C6_disable_rules_accumulate (b : AxeBuilder)
    (rs1 rs2 : StringOrList) (k : String) :
    (k ∈ normalizeSelector rs1 →
      getRule ((b.disableRules rs1)._options.rules.getD []) k =
        some ⟨false⟩) ∧
    (k ∉ normalizeSelector rs2 →
      getRule (((b.disableRules rs1).disableRules rs2)._options.rules.getD []) k =
        getRule ((b.disableRules rs1)._options.rules.getD []) k) ∧
    (k ∈ normalizeSelector rs2 →
      getRule (((b.disableRules rs1).disableRules rs2)._options.rules.getD []) k =
        some ⟨false⟩) ∧
    (k ∈ normalizeSelector rs1 →
      getRule (((b.disableRules rs1).disableRules rs2)._options.rules.getD []) k =
        some ⟨false⟩) := by
  have hfirst : ∀ (b' : AxeBuilder) (rs : StringOrList), k ∈ normalizeSelector rs →
      getRule ((b'.disableRules rs)._options.rules.getD []) k = some ⟨false⟩ := by
    intro b' rs hmem
    rw [disableRules_rules]
    exact getRule_foldl_mem (normalizeSelector rs) ⟨false⟩ k hmem _
  have hskip : k ∉ normalizeSelector rs2 →
      getRule (((b.disableRules rs1).disableRules rs2)._options.rules.getD []) k =
        getRule ((b.disableRules rs1)._options.rules.getD []) k := by
    intro hmem
    rw [disableRules_rules (b.disableRules rs1) rs2]
    exact getRule_foldl_not_mem (normalizeSelector rs2) ⟨false⟩ k hmem _
  refine ⟨hfirst b rs1, hskip, hfirst (b.disableRules rs1) rs2, ?_⟩
  intro h1
  by_cases h2 : k ∈ normalizeSelector rs2
  · exact hfirst (b.disableRules rs1) rs2 h2
  · rw [hskip h2]
    exact hfirst b rs1 h1

/-- C6, witness: after `disableRules(["a"])` then `disableRules(["b"])`
both rule ids are present, each mapped to `{enabled: false}`. -/
theorem C6_disable_rules_accumulate_witness :
    getRule (((AxeBuilder.new.disableRules (.list ["a"])).disableRules
      (.list ["b"]))._options.rules.getD []) "a" = some ⟨false⟩ ∧
    getRule (((AxeBuilder.new.disableRules (.list ["a"])).disableRules
      (.list ["b"]))._options.rules.getD []) "b" = some ⟨false⟩ := by
  have ha := C6_disable_rules_accumulate AxeBuilder.new
    (.list ["a"]) (.list ["b"]) "a"
  have hb := C6_disable_rules_accumulate AxeBuilder.new
    (.list ["a"]) (.list ["b"]) "b"
  exact ⟨ha.2.2.2 (by decide), hb.2.2.1 (by decide)⟩

/-- C8: when the injection step fails, `analyze()` and `configure()`
fail with exactly that error, no engine run and no engine configure
call is made, and the error reaches the caller unchanged. -/
theorem C8_injection_failure (b : AxeBuilder) (win : Window)
    (file : Option String) (engine : Engine) (config : Spec)
    (e : InjectError)
    (herr : (ensureAxeInjected win file).result = .error e) :
    (b.analyze win file engine).result = .error e ∧
    (b.analyze win file engine).engineCalls = [] ∧
    (b.configure win file config).result = .error e ∧
    (b.configure win file config).configureCalls = [] := by
  rw [analyze_err b win file engine e herr,
    configure_err b win file config e herr]
  exact ⟨rfl, rfl, rfl, rfl⟩

/-- C8, witness: on a page without the engine and an unreadable script,
`analyze()` and `configure()` fail with the resource error and make no
engine call. -/
theorem C8_injection_failure_witness :
    (AxeBuilder.new.analyze winBare none engineClean).result =
      .error .resourceNotFound ∧
    (AxeBuilder.new.analyze winBare none engineClean).engineCalls = [] ∧
    (AxeBuilder.new.configure winBare none ⟨0⟩).result =
      .error .resourceNotFound ∧
    (AxeBuilder.new.configure winBare none ⟨0⟩).configureCalls = [] := by
  exact C8_injection_failure AxeBuilder.new winBare none engineClean ⟨0⟩
    .resourceNotFound rfl

/-- C10: the retry defaults treat a falsy configured value as unset:
with `interval` explicitly `0` every scheduled delay is the 1000 ms
default, and with `retries` explicitly `0` exactly one engine run
happens, with the same engine calls, delays and result as when
`retries` is left unset. -/
theorem C10_falsy_defaults (b : AxeBuilder) (win : Window)
    (file : Option String) (engine : Engine)
    (hok : (ensureAxeInjected win file).result = .ok ()) :
    (b._options.interval = some 0 →
      ∀ d ∈ (b.analyze win file engine).delays, d = 1000) ∧
    (b._options.retries = some 0 →
      (b.analyze win file engine).engineCalls.length = 1 ∧
      (({ b with _options :=
          { b._options with retries := none } }).analyze
            win file engine).engineCalls.length = 1 ∧
      (b.analyze win file engine).result =
        (({ b with _options :=
          { b._options with retries := none } }).analyze
            win file engine).result) := by
  constructor
  · intro hi d hd
    rw [analyze_ok_delays b win file engine hok] at hd
    have h := runAxeCheck_delays_mem engine (runArg b.buildContext)
      (engineOptions b._options) (jsOr b._options.interval 1000)
      (jsOr b._options.retries 0) 0 d hd
    rw [h, hi]
    rfl
  · intro hr
    refine ⟨?_, ?_, ?_⟩
    · rw [analyze_ok_engineCalls b win file engine hok, hr]
      rfl
    · rw [analyze_ok_engineCalls _ win file engine hok]
      rfl
    · rw [analyze_ok_result b win file engine hok,
        analyze_ok_result _ win file engine hok, hr]
      rfl

/-- C10, witness: with `interval = 0` and `retries = 1` the single
scheduled delay is 1000 ms; with `interval = 0` and `retries = 0`
exactly one engine run happens. -/
theorem C10_falsy_defaults_witness :
    (builderZeros.analyze winInjected (some "axe")
      engineAlwaysOne).engineCalls.length = 1 ∧
    (builderIntervalZero.analyze winInjected (some "axe")
      engineAlwaysOne).delays.headI = 1000 := by
  constructor
  · exact ((C10_falsy_defaults builderZeros winInjected (some "axe")
      engineAlwaysOne rfl).2 rfl).1
  · exact (C10_falsy_defaults builderIntervalZero winInjected (some "axe")
      engineAlwaysOne rfl).1 rfl _ (by decide)

end AxeCypress
